import Mathlib

/-!
# Verification of the `@hixbe/time` NTP client core

Shallow embedding of the NTP packet codec (`src/core/parser.ts`) and the
query/fallback engine (`NTPClient`) of the `hixbehq/nodejs-time` repository,
with theorems settling the frozen specification claims.

Modelling conventions:
* A Node `Buffer` is a `List Nat` of byte values; `buffer[i]` out-of-range
  reads (which never occur on the paths modelled, all indices being < 48 and
  the length checked first) are `List.getD _ _ 0`.
* JavaScript `number` arithmetic is modelled over `ℚ` (exact rationals);
  integer-valued fields stay in `Nat`/`Int`.  Every quantity the claims touch
  (32-bit integers, halves, thousandths, dyadic fractions) is exact here.
* A JavaScript `Date` is represented by its epoch-milliseconds value
  (`Date.prototype.getTime`), a `ℚ`; the derived `iso`/`local` strings of
  `ParsedNTPTimestamp` are deterministic renderings of that value and are
  not separately modelled.
* A thrown `Error` is an `Except.error` carrying the message string.
-/

/-- `Buffer.prototype.readUInt32BE`: big-endian 32-bit read at `offset`. -/
def readUInt32BE (buffer : List Nat) (offset : Nat) : Nat :=
  buffer.getD offset 0 * 16777216 + buffer.getD (offset + 1) 0 * 65536 +
    buffer.getD (offset + 2) 0 * 256 + buffer.getD (offset + 3) 0

/-- `Buffer.prototype.writeUInt32BE`: the four big-endian bytes of a 32-bit value. -/
def encodeUInt32BE (n : Nat) : List Nat :=
  [n / 16777216 % 256, n / 65536 % 256, n / 256 % 256, n % 256]

/-- `RawNTPTimestamp` of `parser.ts`. -/
structure RawNTPTimestamp where
  seconds : Nat
  fraction : Nat
deriving DecidableEq, Repr

/-- The `unix` field of `ParsedNTPTimestamp`. -/
structure UnixTime where
  seconds : Int
  milliseconds : ℚ
deriving DecidableEq, Repr

/-- `ParsedNTPTimestamp` of `parser.ts`; `timestamp` is `date.getTime()`,
the epoch-milliseconds value of the `Date` built from the timestamp. -/
structure ParsedNTPTimestamp where
  raw : RawNTPTimestamp
  unix : UnixTime
  timestamp : ℚ
deriving DecidableEq, Repr

/-- `NTPPacketHeader` of `parser.ts`. -/
structure NTPPacketHeader where
  leapIndicator : Nat
  versionNumber : Nat
  mode : Nat
  stratum : Nat
  pollInterval : Nat
  precision : Nat
  rootDelay : Nat
  rootDispersion : Nat
  referenceId : String
deriving DecidableEq, Repr

/-- `NTPTimestamps` of `parser.ts`. -/
structure NTPTimestamps where
  reference : ParsedNTPTimestamp
  originate : ParsedNTPTimestamp
  receive : ParsedNTPTimestamp
  transmit : ParsedNTPTimestamp
deriving DecidableEq, Repr

/-- `ParsedNTPPacket` of `parser.ts`; the delay/offset slots are `null`
(`none`) until explicitly computed. -/
structure ParsedNTPPacket where
  header : NTPPacketHeader
  timestamps : NTPTimestamps
  roundTripDelay : Option ℚ
  clockOffset : Option ℚ
deriving DecidableEq, Repr

/-- `NTPParser.NTP_EPOCH_OFFSET`: seconds between 1900-01-01 and 1970-01-01. -/
def NTP_EPOCH_OFFSET : Nat := 2208988800

/-- `NTPParser.parseNTPTimestamp`: 8-byte fixed-point timestamp at `offset`. -/
def parseNTPTimestamp (buffer : List Nat) (offset : Nat) : ParsedNTPTimestamp :=
  let seconds := readUInt32BE buffer offset
  let fraction := readUInt32BE buffer (offset + 4)
  let milliseconds : ℚ := (fraction : ℚ) / 4294967296 * 1000
  let unixSeconds : Int := (seconds : Int) - (NTP_EPOCH_OFFSET : Int)
  { raw := ⟨seconds, fraction⟩
    unix := ⟨unixSeconds, milliseconds⟩
    timestamp := (unixSeconds : ℚ) * 1000 + milliseconds }

/-- One uppercase hexadecimal digit (`0`–`F`). -/
def hexDigitUpper (n : Nat) : Char :=
  match n with
  | 0 => '0' | 1 => '1' | 2 => '2' | 3 => '3'
  | 4 => '4' | 5 => '5' | 6 => '6' | 7 => '7'
  | 8 => '8' | 9 => '9' | 10 => 'A' | 11 => 'B'
  | 12 => 'C' | 13 => 'D' | 14 => 'E' | _ => 'F'

/-- `id.toString(16).toUpperCase()`: most-significant-first uppercase hex
digits of `n`, no leading zeros (JavaScript renders uppercase only after
`toUpperCase`; the composition is modelled as one function). -/
def hexCharsUpper (n : Nat) : List Char :=
  if h : n < 16 then [hexDigitUpper n]
  else hexCharsUpper (n / 16) ++ [hexDigitUpper (n % 16)]
decreasing_by exact Nat.div_lt_self (by omega) (by omega)

/-- `String.prototype.padStart(8, '0')` on a list of characters. -/
def padStart8 (cs : List Char) : List Char :=
  List.replicate (8 - cs.length) '0' ++ cs

/-- Node `buf.toString('ascii')`: each byte is masked to 7 bits. -/
def asciiDecode (bytes : List Nat) : List Char :=
  bytes.map (fun b => Char.ofNat (b % 128))

/-- `.replace(/\x00/g, '')`: drop NUL characters. -/
def stripNul (cs : List Char) : List Char :=
  cs.filter (fun c => c != Char.ofNat 0)

/-- `NTPParser.formatReferenceId`: stratum-dependent rendering of the
32-bit reference identifier. -/
def formatReferenceId (id : Nat) (stratum : Nat) : String :=
  if stratum = 0 then "KISS"
  else if stratum = 1 then String.mk (stripNul (asciiDecode (encodeUInt32BE id)))
  else "0x" ++ String.mk (padStart8 (hexCharsUpper id))

/-- `NTPParser.parsePacket`: decode a 48-byte NTP response; inputs shorter
than 48 bytes throw `Invalid NTP packet: minimum 48 bytes required`. -/
def parsePacket (buffer : List Nat) : Except String ParsedNTPPacket :=
  if buffer.length < 48 then
    .error "Invalid NTP packet: minimum 48 bytes required"
  else
    let firstByte := buffer.getD 0 0
    let leapIndicator := firstByte / 64 % 4
    let versionNumber := firstByte / 8 % 8
    let mode := firstByte % 8
    let stratum := buffer.getD 1 0
    let pollInterval := buffer.getD 2 0
    let precision := buffer.getD 3 0
    let referenceTimestamp := parseNTPTimestamp buffer 16
    let originateTimestamp := parseNTPTimestamp buffer 24
    let receiveTimestamp := parseNTPTimestamp buffer 32
    let transmitTimestamp := parseNTPTimestamp buffer 40
    let rootDelay := readUInt32BE buffer 4
    let rootDispersion := readUInt32BE buffer 8
    let referenceId := readUInt32BE buffer 12
    .ok
      { header :=
          { leapIndicator := leapIndicator
            versionNumber := versionNumber
            mode := mode
            stratum := stratum
            pollInterval := pollInterval
            precision := precision
            rootDelay := rootDelay
            rootDispersion := rootDispersion
            referenceId := formatReferenceId referenceId stratum }
        timestamps :=
          { reference := referenceTimestamp
            originate := originateTimestamp
            receive := receiveTimestamp
            transmit := transmitTimestamp }
        roundTripDelay := none
        clockOffset := none }

/-- Return type of `NTPParser.calculateMetrics`. -/
structure MetricsResult where
  roundTripDelay : ℚ
  clockOffset : ℚ
  roundTripDelayMs : ℚ
  clockOffsetMs : ℚ
deriving DecidableEq, Repr

/-- `NTPParser.calculateMetrics`: four-timestamp NTP delay/offset.  The two
client clock readings are passed as epoch-milliseconds (`Date.getTime()`). -/
def calculateMetrics (parsed : ParsedNTPPacket)
    (clientOriginateTimeMs clientReceiveTimeMs : ℚ) : MetricsResult :=
  let t1 := clientOriginateTimeMs / 1000
  let t2 := (parsed.timestamps.receive.unix.seconds : ℚ) +
    parsed.timestamps.receive.unix.milliseconds / 1000
  let t3 := (parsed.timestamps.transmit.unix.seconds : ℚ) +
    parsed.timestamps.transmit.unix.milliseconds / 1000
  let t4 := clientReceiveTimeMs / 1000
  let roundTripDelay := (t4 - t1) - (t3 - t2)
  let clockOffset := ((t2 - t1) + (t3 - t4)) / 2
  { roundTripDelay := roundTripDelay
    clockOffset := clockOffset
    roundTripDelayMs := roundTripDelay * 1000
    clockOffsetMs := clockOffset * 1000 }

/-!
## Query engine (`NTPClient`, client with fallback)

The UDP transport is abstracted as an environment `env : String → Except
String Transport` giving, per host, either the transport failure (timeout,
socket error — the rejection's message) or the received datagram together
with the local clock readings recorded for that attempt.  `queryServer`
then performs the parse step exactly as `NTPClient.queryServer` does: a
parse error rejects that attempt.  The `hexDump` string of the result is a
deterministic rendering of `buffer` and is not separately modelled.
-/

/-- Outcome of one UDP exchange with a host: datagram, peer address, and the
local clock readings `clientReceiveTime` / `clientOriginateTime` (epoch ms). -/
structure Transport where
  buffer : List Nat
  serverAddress : String
  clientReceiveTimeMs : ℚ
  clientOriginateTimeMs : ℚ
deriving DecidableEq, Repr

/-- `NTPQueryResult` of the client (epoch-ms `Date`s, `hexDump` omitted). -/
structure NTPQueryResult where
  buffer : List Nat
  parsed : ParsedNTPPacket
  serverAddress : String
  clientReceiveTimeMs : ℚ
  clientOriginateTimeMs : ℚ
  usedServer : String
deriving DecidableEq, Repr

/-- The error thrown when every host fails: `NTP query failed for all
servers (<attempted list>): <last error message>`. -/
structure AllServersUnreachable where
  attempted : List String
  lastError : Option String
deriving DecidableEq, Repr

/-- `NTPClient.queryServer`: one attempt against `host`; transport failure
or parse failure rejects, success resolves with `usedServer := host`. -/
def queryServer (env : String → Except String Transport) (host : String) :
    Except String NTPQueryResult :=
  match env host with
  | .error e => .error e
  | .ok t =>
    match parsePacket t.buffer with
    | .error e => .error e
    | .ok parsed =>
      .ok
        { buffer := t.buffer
          parsed := parsed
          serverAddress := t.serverAddress
          clientReceiveTimeMs := t.clientReceiveTimeMs
          clientOriginateTimeMs := t.clientOriginateTimeMs
          usedServer := host }

/-- The fallback loop of `NTPClient.query`: try each host in order,
remembering the last error; return the first success or the final
`lastError`. -/
def queryGo (env : String → Except String Transport) :
    List String → Option String → Except (Option String) NTPQueryResult
  | [], lastError => .error lastError
  | server :: rest, _lastError =>
    match queryServer env server with
    | .ok r => .ok r
    | .error e => queryGo env rest (some e)

/-- `NTPClient.query`: primary host first, then the fallback servers; when
all fail, throw `AllServersUnreachable` carrying the attempted list and the
last error. -/
def query (env : String → Except String Transport) (host : String)
    (fallbackServers : List String) : Except AllServersUnreachable NTPQueryResult :=
  let servers := host :: fallbackServers
  match queryGo env servers none with
  | .ok r => .ok r
  | .error lastError => .error ⟨servers, lastError⟩

/-- `NTPClient.getTime`: the transmit timestamp's calendar value (epoch ms). -/
def getTime (env : String → Except String Transport) (host : String)
    (fallbackServers : List String) : Except AllServersUnreachable ℚ :=
  match query env host fallbackServers with
  | .error e => .error e
  | .ok r => .ok r.parsed.timestamps.transmit.timestamp

/-- `NTPClient.getOffset`: `transmit.date.getTime() − clientReceiveTime.getTime()`. -/
def getOffset (env : String → Except String Transport) (host : String)
    (fallbackServers : List String) : Except AllServersUnreachable ℚ :=
  match query env host fallbackServers with
  | .error e => .error e
  | .ok r => .ok (r.parsed.timestamps.transmit.timestamp - r.clientReceiveTimeMs)

/-!
## Helper lemmas
-/

theorem encodeUInt32BE_of_bytes (b0 b1 b2 b3 : Nat)
    (h0 : b0 < 256) (h1 : b1 < 256) (h2 : b2 < 256) (h3 : b3 < 256) :
    encodeUInt32BE (b0 * 16777216 + b1 * 65536 + b2 * 256 + b3) = [b0, b1, b2, b3] := by
  simp only [encodeUInt32BE, List.cons.injEq, and_true]
  refine ⟨?_, ?_, ?_, ?_⟩ <;> omega

theorem readUInt32BE_encode_left (s f : Nat) (hs : s < 4294967296) :
    readUInt32BE (encodeUInt32BE s ++ encodeUInt32BE f) 0 = s := by
  simp only [readUInt32BE, encodeUInt32BE, List.cons_append, List.nil_append,
    List.getD_cons_zero, List.getD_cons_succ]
  omega

theorem readUInt32BE_encode_right (s f : Nat) (hf : f < 4294967296) :
    readUInt32BE (encodeUInt32BE s ++ encodeUInt32BE f) 4 = f := by
  simp only [readUInt32BE, encodeUInt32BE, List.cons_append, List.nil_append,
    List.getD_cons_succ, List.getD_cons_zero]
  omega

/-!
## Claim theorems
-/

/-- C4: for every unsigned 32-bit raw seconds value read from a timestamp
field, the parsed timestamp's Unix seconds equal the raw seconds minus
2208988800, in exact integer arithmetic: stated once for an arbitrary
buffer and offset, and once through an explicit big-endian encoding of an
arbitrary 32-bit seconds/fraction pair. -/
theorem parseNTPTimestamp_unix_seconds :
    (∀ (buffer : List Nat) (offset : Nat),
      (parseNTPTimestamp buffer offset).unix.seconds =
        (readUInt32BE buffer offset : Int) - 2208988800) ∧
    (∀ s f : Nat, s < 4294967296 → f < 4294967296 →
      (parseNTPTimestamp (encodeUInt32BE s ++ encodeUInt32BE f) 0).unix.seconds =
        (s : Int) - 2208988800) := by
  constructor
  · intro buffer offset
    simp [parseNTPTimestamp, NTP_EPOCH_OFFSET]
  · intro s f hs hf
    simp only [parseNTPTimestamp, NTP_EPOCH_OFFSET]
    rw [readUInt32BE_encode_left s f hs]
    norm_num

/-- C4 witness: seconds value 2208989800 parses to Unix second 1000. -/
theorem parseNTPTimestamp_unix_seconds_witness :
    (parseNTPTimestamp (encodeUInt32BE 2208989800 ++ encodeUInt32BE 0) 0).unix.seconds =
      (2208989800 : Int) - 2208988800 :=
  parseNTPTimestamp_unix_seconds.2 2208989800 0 (by norm_num) (by norm_num)

/-- C9: the parsed fractional milliseconds equal `fraction / 2^32 * 1000`
(stated for an arbitrary buffer and through an explicit encoding), with the
three singled-out values: fraction 0 gives 0 ms, fraction 0x80000000 gives
exactly 500 ms, and fraction 0xFFFFFFFF gives a value within 0.001 ms of
999.9998 ms. -/
theorem parseNTPTimestamp_milliseconds :
    (∀ (buffer : List Nat) (offset : Nat),
      (parseNTPTimestamp buffer offset).unix.milliseconds =
        (readUInt32BE buffer (offset + 4) : ℚ) / 4294967296 * 1000) ∧
    (∀ f : Nat, f < 4294967296 →
      (parseNTPTimestamp (encodeUInt32BE 0 ++ encodeUInt32BE f) 0).unix.milliseconds =
        (f : ℚ) / 4294967296 * 1000) ∧
    (parseNTPTimestamp (encodeUInt32BE 0 ++ encodeUInt32BE 0) 0).unix.milliseconds = 0 ∧
    (parseNTPTimestamp (encodeUInt32BE 0 ++ encodeUInt32BE 2147483648) 0).unix.milliseconds
      = 500 ∧
    abs ((parseNTPTimestamp (encodeUInt32BE 0 ++ encodeUInt32BE 4294967295) 0).unix.milliseconds
      - 999.9998) < 1 / 1000 := by
  have hgen : ∀ f : Nat, f < 4294967296 →
      (parseNTPTimestamp (encodeUInt32BE 0 ++ encodeUInt32BE f) 0).unix.milliseconds =
        (f : ℚ) / 4294967296 * 1000 := by
    intro f hf
    simp only [parseNTPTimestamp]
    rw [show (0 : Nat) + 4 = 4 from rfl, readUInt32BE_encode_right 0 f hf]
  refine ⟨?_, hgen, ?_, ?_, ?_⟩
  · intro buffer offset
    simp [parseNTPTimestamp]
  · rw [hgen 0 (by norm_num)]; norm_num
  · rw [hgen 2147483648 (by norm_num)]; norm_num
  · rw [hgen 4294967295 (by norm_num)]
    rw [show (999.9998 : ℚ) = 9999998 / 10000 from by norm_num]
    rw [abs_lt]
    constructor <;> norm_num

/-- C9 witness: fraction 1 gives 1000/2^32 milliseconds. -/
theorem parseNTPTimestamp_milliseconds_witness :
    (parseNTPTimestamp (encodeUInt32BE 0 ++ encodeUInt32BE 1) 0).unix.milliseconds =
      (1 : ℚ) / 4294967296 * 1000 :=
  parseNTPTimestamp_milliseconds.2.1 1 (by norm_num)

/-- C2: buffers of 47 bytes or fewer fail with the `MalformedPacket` error
message and nothing else (the parse function is total, so it cannot crash);
buffers of 48 bytes or more pass the length check and parse successfully,
raising no error. -/
theorem parsePacket_length_guard (buffer : List Nat) :
    (buffer.length ≤ 47 →
      parsePacket buffer = .error "Invalid NTP packet: minimum 48 bytes required") ∧
    (48 ≤ buffer.length → ∃ p, parsePacket buffer = .ok p) := by
  constructor
  · intro h
    unfold parsePacket
    rw [if_pos (by omega)]
  · intro h
    unfold parsePacket
    rw [if_neg (by omega)]
    exact ⟨_, rfl⟩

/-- C2 witness: a 47-byte buffer fails, a 48-byte buffer parses. -/
theorem parsePacket_length_guard_witness :
    (parsePacket (List.replicate 47 0) =
      .error "Invalid NTP packet: minimum 48 bytes required") ∧
    (∃ p, parsePacket (List.replicate 48 0) = .ok p) :=
  ⟨(parsePacket_length_guard (List.replicate 47 0)).1 (by simp),
   (parsePacket_length_guard (List.replicate 48 0)).2 (by simp)⟩

/-- A parsed timestamp whose fractional-seconds value is exactly 1000.100 s
(Unix second 1000, fractional part 100 ms), used at the spec's worked
`calculateMetrics` example (T2 = T3 = 1000.100 s). -/
def exampleServerTimestamp : ParsedNTPTimestamp :=
  { raw := ⟨2208989800, 429496730⟩
    unix := ⟨1000, 100⟩
    timestamp := 1000100 }

/-- A packet whose receive and transmit timestamps both read 1000.100 s,
as in the spec's worked `calculateMetrics` example. -/
def examplePacket : ParsedNTPPacket :=
  { header :=
      { leapIndicator := 0, versionNumber := 4, mode := 4, stratum := 2
        pollInterval := 0, precision := 0, rootDelay := 0, rootDispersion := 0
        referenceId := "0x00000000" }
    timestamps :=
      { reference := exampleServerTimestamp
        originate := exampleServerTimestamp
        receive := exampleServerTimestamp
        transmit := exampleServerTimestamp }
    roundTripDelay := none
    clockOffset := none }

/-- C1 counterexample: at T1 = 1000.000 s, T2 = T3 = 1000.100 s,
T4 = 1000.250 s the code does not yield delay 0.150 s and does not yield
offset 0.075 s. -/
theorem calculateMetrics_example_counterexample :
    (calculateMetrics examplePacket 1000000 1000250).roundTripDelay ≠ 150 / 1000 ∧
    (calculateMetrics examplePacket 1000000 1000250).clockOffset ≠ 75 / 1000 := by
  constructor <;>
    · simp only [calculateMetrics, examplePacket, exampleServerTimestamp]
      norm_num

/-- C1 amended: `calculateMetrics` returns
`roundTripDelay = (T4 − T1) − (T3 − T2)` and
`clockOffset = ((T2 − T1) + (T3 − T4)) / 2` (with millisecond-scaled
variants), where T2 and T3 are the packet's receive and transmit
timestamps in fractional seconds; at T1 = 1000.000 s, T2 = T3 = 1000.100 s,
T4 = 1000.250 s this yields delay 0.250 s and offset −0.025 s. -/
theorem calculateMetrics_formula :
    (∀ (parsed : ParsedNTPPacket) (t1ms t4ms : ℚ),
      (calculateMetrics parsed t1ms t4ms).roundTripDelay =
        (t4ms / 1000 - t1ms / 1000) -
          (((parsed.timestamps.transmit.unix.seconds : ℚ) +
              parsed.timestamps.transmit.unix.milliseconds / 1000) -
            ((parsed.timestamps.receive.unix.seconds : ℚ) +
              parsed.timestamps.receive.unix.milliseconds / 1000)) ∧
      (calculateMetrics parsed t1ms t4ms).clockOffset =
        ((((parsed.timestamps.receive.unix.seconds : ℚ) +
              parsed.timestamps.receive.unix.milliseconds / 1000) - t1ms / 1000) +
          (((parsed.timestamps.transmit.unix.seconds : ℚ) +
              parsed.timestamps.transmit.unix.milliseconds / 1000) - t4ms / 1000)) / 2 ∧
      (calculateMetrics parsed t1ms t4ms).roundTripDelayMs =
        (calculateMetrics parsed t1ms t4ms).roundTripDelay * 1000 ∧
      (calculateMetrics parsed t1ms t4ms).clockOffsetMs =
        (calculateMetrics parsed t1ms t4ms).clockOffset * 1000) ∧
    (calculateMetrics examplePacket 1000000 1000250).roundTripDelay = 250 / 1000 ∧
    (calculateMetrics examplePacket 1000000 1000250).clockOffset = -(25 / 1000) := by
  refine ⟨fun parsed t1ms t4ms => ⟨rfl, rfl, rfl, rfl⟩, ?_, ?_⟩ <;>
    · simp only [calculateMetrics, examplePacket, exampleServerTimestamp]
      norm_num

/-- A 48-byte kiss-of-death response: stratum byte 0, reference-identifier
bytes 0x44 0x45 0x4E 0x59 spelling `DENY`. -/
def denyBuffer : List Nat :=
  [0x1C, 0, 0, 0, 0, 0, 0, 0, 0, 0, 0, 0, 0x44, 0x45, 0x4E, 0x59] ++
    List.replicate 32 0

/-- C5 counterexample: the stratum-0 packet whose referenceId bytes spell
`DENY` decodes `header.referenceId` to `KISS`, not `DENY`. -/
theorem parsePacket_deny_counterexample :
    (parsePacket denyBuffer).toOption.map (fun p => p.header.referenceId) = some "KISS" ∧
    "KISS" ≠ "DENY" :=
  ⟨rfl, by decide⟩

/-- C5 amended: every stratum-0 packet, whatever its referenceId bytes,
decodes `header.referenceId` to the literal marker string `KISS` (the
kiss-of-death branch returns the constant, it never renders the bytes). -/
theorem parsePacket_stratum0_kiss (buffer : List Nat)
    (h48 : 48 ≤ buffer.length) (h0 : buffer.getD 1 0 = 0) :
    ∃ p, parsePacket buffer = .ok p ∧ p.header.referenceId = "KISS" := by
  unfold parsePacket
  rw [if_neg (by omega)]
  refine ⟨_, rfl, ?_⟩
  show formatReferenceId (readUInt32BE buffer 12) (buffer.getD 1 0) = "KISS"
  rw [h0]
  rfl

/-- C5 witness: the `DENY` kiss-of-death buffer parses with referenceId
`KISS`. -/
theorem parsePacket_stratum0_kiss_witness :
    ∃ p, parsePacket denyBuffer = .ok p ∧ p.header.referenceId = "KISS" :=
  parsePacket_stratum0_kiss denyBuffer (by decide) (by decide)

/-- The sixteen uppercase hexadecimal digit characters. -/
abbrev isHexUpperChar (c : Char) : Prop :=
  c ∈ (['0', '1', '2', '3', '4', '5', '6', '7', '8', '9',
        'A', 'B', 'C', 'D', 'E', 'F'] : List Char)

theorem hexDigitUpper_mem (m : Nat) : isHexUpperChar (hexDigitUpper m) := by
  match m with
  | 0 => decide
  | 1 => decide
  | 2 => decide
  | 3 => decide
  | 4 => decide
  | 5 => decide
  | 6 => decide
  | 7 => decide
  | 8 => decide
  | 9 => decide
  | 10 => decide
  | 11 => decide
  | 12 => decide
  | 13 => decide
  | 14 => decide
  | n + 15 =>
    show isHexUpperChar 'F'
    decide

theorem hexCharsUpper_mem (n : Nat) : ∀ c ∈ hexCharsUpper n, isHexUpperChar c := by
  induction n using Nat.strong_induction_on with
  | _ n ih =>
    rw [hexCharsUpper]
    split
    · intro c hc
      rw [List.mem_singleton] at hc
      exact hc ▸ hexDigitUpper_mem n
    · intro c hc
      rw [List.mem_append] at hc
      rcases hc with hc | hc
      · exact ih (n / 16) (Nat.div_lt_self (by omega) (by omega)) c hc
      · rw [List.mem_singleton] at hc
        exact hc ▸ hexDigitUpper_mem (n % 16)

theorem hexCharsUpper_length_le :
    ∀ k n : Nat, 1 ≤ k → n < 16 ^ k → (hexCharsUpper n).length ≤ k := by
  intro k
  induction k with
  | zero => omega
  | succ k ih =>
    intro n _ hn
    rw [hexCharsUpper]
    split
    · simp
    · rename_i h16
      have hk : 1 ≤ k := by
        by_contra hk0
        have : k = 0 := by omega
        subst this
        simp at hn
        omega
      have hdiv : n / 16 < 16 ^ k := by
        rw [Nat.div_lt_iff_lt_mul (by omega)]
        calc n < 16 ^ (k + 1) := hn
          _ = 16 ^ k * 16 := by ring
      have := ih (n / 16) hk hdiv
      simp only [List.length_append, List.length_singleton]
      omega

theorem padStart8_length (cs : List Char) (h : cs.length ≤ 8) :
    (padStart8 cs).length = 8 := by
  simp only [padStart8, List.length_append, List.length_replicate]
  omega

theorem padStart8_mem (cs : List Char) (c : Char) (hc : c ∈ padStart8 cs) :
    c = '0' ∨ c ∈ cs := by
  simp only [padStart8, List.mem_append, List.mem_replicate] at hc
  rcases hc with ⟨_, h⟩ | h
  · exact Or.inl h
  · exact Or.inr h

/-- C6: reference-identifier formatting is a function of the stratum.  For
every stratum ≥ 2 the rendering is `0x` followed by exactly 8 characters
that are all uppercase hexadecimal digits; for stratum 1 the four bytes of
the identifier are decoded as ASCII with NUL characters trimmed; the two
quoted examples hold: bytes 0x47 0x50 0x53 0x00 at stratum 1 give `GPS`,
and identifier 0xD8EF230C at stratum 2 gives `0xD8EF230C`. -/
theorem formatReferenceId_by_stratum :
    (∀ id stratum : Nat, 2 ≤ stratum → id < 4294967296 →
      ∃ ds : List Char, formatReferenceId id stratum = String.mk ('0' :: 'x' :: ds) ∧
        ds.length = 8 ∧ ∀ c ∈ ds, isHexUpperChar c) ∧
    (∀ b0 b1 b2 b3 : Nat, b0 < 256 → b1 < 256 → b2 < 256 → b3 < 256 →
      formatReferenceId (b0 * 16777216 + b1 * 65536 + b2 * 256 + b3) 1 =
        String.mk (stripNul (asciiDecode [b0, b1, b2, b3]))) ∧
    formatReferenceId (0x47 * 16777216 + 0x50 * 65536 + 0x53 * 256 + 0x00) 1 = "GPS" ∧
    formatReferenceId 0xD8EF230C 2 = "0xD8EF230C" := by
  refine ⟨?_, ?_, ?_, ?_⟩
  · intro id stratum h2 hid
    refine ⟨padStart8 (hexCharsUpper id), ?_, ?_, ?_⟩
    · unfold formatReferenceId
      rw [if_neg (by omega), if_neg (by omega)]
      rfl
    · refine padStart8_length _ (hexCharsUpper_length_le 8 id (by norm_num) ?_)
      rw [show (16 : Nat) ^ 8 = 4294967296 from by norm_num]
      exact hid
    · intro c hc
      rcases padStart8_mem _ c hc with h | h
      · subst h; decide
      · exact hexCharsUpper_mem id c h
  · intro b0 b1 b2 b3 h0 h1 h2 h3
    unfold formatReferenceId
    rw [if_neg (by omega), if_pos rfl, encodeUInt32BE_of_bytes b0 b1 b2 b3 h0 h1 h2 h3]
  · simp [formatReferenceId, stripNul, asciiDecode, encodeUInt32BE]
  · simp [formatReferenceId, hexCharsUpper, padStart8, hexDigitUpper]

/-- C6 witness: both general clauses at the spec's quoted inputs. -/
theorem formatReferenceId_by_stratum_witness :
    (∃ ds : List Char, formatReferenceId 0xD8EF230C 2 = String.mk ('0' :: 'x' :: ds) ∧
      ds.length = 8 ∧ ∀ c ∈ ds, isHexUpperChar c) ∧
    formatReferenceId (0x47 * 16777216 + 0x50 * 65536 + 0x53 * 256 + 0x00) 1 =
      String.mk (stripNul (asciiDecode [0x47, 0x50, 0x53, 0x00])) :=
  ⟨formatReferenceId_by_stratum.1 0xD8EF230C 2 (by norm_num) (by norm_num),
   formatReferenceId_by_stratum.2.1 0x47 0x50 0x53 0x00
     (by norm_num) (by norm_num) (by norm_num) (by norm_num)⟩

/-- A trivial parsed packet used to separate the two offset formulas. -/
def zeroTimestamp : ParsedNTPTimestamp :=
  { raw := ⟨0, 0⟩, unix := ⟨0, 0⟩, timestamp := 0 }

/-- A packet whose four timestamps are all `zeroTimestamp`. -/
def zeroPacket : ParsedNTPPacket :=
  { header :=
      { leapIndicator := 0, versionNumber := 0, mode := 0, stratum := 0
        pollInterval := 0, precision := 0, rootDelay := 0, rootDispersion := 0
        referenceId := "KISS" }
    timestamps :=
      { reference := zeroTimestamp, originate := zeroTimestamp
        receive := zeroTimestamp, transmit := zeroTimestamp }
    roundTripDelay := none
    clockOffset := none }

/-- C7: `getOffset` delegates to `query` and returns the transmit
timestamp's calendar value in milliseconds minus the client-receive time in
milliseconds, and this simplified two-point offset is not the four-timestamp
`calculateMetrics` offset (the two disagree on an explicit input). -/
theorem getOffset_two_point :
    (∀ (env : String → Except String Transport) (host : String)
        (fallbackServers : List String),
      getOffset env host fallbackServers =
        (query env host fallbackServers).map
          (fun r => r.parsed.timestamps.transmit.timestamp - r.clientReceiveTimeMs)) ∧
    (∃ (parsed : ParsedNTPPacket) (t1ms t4ms recvMs : ℚ),
      parsed.timestamps.transmit.timestamp - recvMs ≠
        (calculateMetrics parsed t1ms t4ms).clockOffsetMs) := by
  constructor
  · intro env host fallbackServers
    unfold getOffset
    cases h : query env host fallbackServers <;> simp [h, Except.map]
  · refine ⟨zeroPacket, 0, 0, 1, ?_⟩
    simp only [zeroPacket, zeroTimestamp, calculateMetrics]
    norm_num

theorem drop_cons_getD (l : List Nat) (k : Nat) (h : k < l.length) :
    l.drop k = l.getD k 0 :: l.drop (k + 1) := by
  rw [List.getD_eq_getElem?_getD, List.getElem?_eq_getElem h]
  exact List.drop_eq_getElem_cons h

theorem drop_take8 (l : List Nat) (k : Nat) (h : k + 8 ≤ l.length) :
    (l.drop k).take 8 =
      [l.getD k 0, l.getD (k + 1) 0, l.getD (k + 2) 0, l.getD (k + 3) 0,
       l.getD (k + 4) 0, l.getD (k + 5) 0, l.getD (k + 6) 0, l.getD (k + 7) 0] := by
  rw [drop_cons_getD l k (by omega)]
  rw [drop_cons_getD l (k + 1) (by omega)]
  rw [show k + 1 + 1 = k + 2 from rfl]
  rw [drop_cons_getD l (k + 2) (by omega)]
  rw [show k + 2 + 1 = k + 3 from rfl]
  rw [drop_cons_getD l (k + 3) (by omega)]
  rw [show k + 3 + 1 = k + 4 from rfl]
  rw [drop_cons_getD l (k + 4) (by omega)]
  rw [show k + 4 + 1 = k + 5 from rfl]
  rw [drop_cons_getD l (k + 5) (by omega)]
  rw [show k + 5 + 1 = k + 6 from rfl]
  rw [drop_cons_getD l (k + 6) (by omega)]
  rw [show k + 6 + 1 = k + 7 from rfl]
  rw [drop_cons_getD l (k + 7) (by omega)]
  rfl

theorem getD_lt_256 (l : List Nat) (hb : ∀ b ∈ l, b < 256) (i : Nat)
    (hi : i < l.length) : l.getD i 0 < 256 := by
  rw [List.getD_eq_getElem?_getD, List.getElem?_eq_getElem hi]
  exact hb _ (List.getElem_mem hi)

theorem encode_read_roundtrip (l : List Nat) (k : Nat)
    (hk : k + 8 ≤ l.length) (hb : ∀ b ∈ l, b < 256) :
    encodeUInt32BE (readUInt32BE l k) ++ encodeUInt32BE (readUInt32BE l (k + 4)) =
      (l.drop k).take 8 := by
  simp only [readUInt32BE]
  rw [show k + 4 + 1 = k + 5 from rfl, show k + 4 + 2 = k + 6 from rfl,
    show k + 4 + 3 = k + 7 from rfl]
  rw [encodeUInt32BE_of_bytes _ _ _ _ (getD_lt_256 l hb k (by omega))
    (getD_lt_256 l hb (k + 1) (by omega)) (getD_lt_256 l hb (k + 2) (by omega))
    (getD_lt_256 l hb (k + 3) (by omega))]
  rw [encodeUInt32BE_of_bytes _ _ _ _ (getD_lt_256 l hb (k + 4) (by omega))
    (getD_lt_256 l hb (k + 5) (by omega)) (getD_lt_256 l hb (k + 6) (by omega))
    (getD_lt_256 l hb (k + 7) (by omega))]
  rw [drop_take8 l k hk]
  rfl

/-- C8: for every valid 48-byte buffer, parsing and then re-encoding the
four raw (seconds, fraction) timestamp pairs as big-endian 32-bit words
reproduces the original 8-byte sequences at offsets 16–23, 24–31, 32–39
and 40–47 exactly. -/
theorem parsePacket_timestamp_roundtrip (buffer : List Nat)
    (hlen : buffer.length = 48) (hbytes : ∀ b ∈ buffer, b < 256) :
    ∃ p, parsePacket buffer = .ok p ∧
      encodeUInt32BE p.timestamps.reference.raw.seconds ++
          encodeUInt32BE p.timestamps.reference.raw.fraction =
        (buffer.drop 16).take 8 ∧
      encodeUInt32BE p.timestamps.originate.raw.seconds ++
          encodeUInt32BE p.timestamps.originate.raw.fraction =
        (buffer.drop 24).take 8 ∧
      encodeUInt32BE p.timestamps.receive.raw.seconds ++
          encodeUInt32BE p.timestamps.receive.raw.fraction =
        (buffer.drop 32).take 8 ∧
      encodeUInt32BE p.timestamps.transmit.raw.seconds ++
          encodeUInt32BE p.timestamps.transmit.raw.fraction =
        (buffer.drop 40).take 8 := by
  unfold parsePacket
  rw [if_neg (by omega)]
  refine ⟨_, rfl, ?_, ?_, ?_, ?_⟩
  · exact encode_read_roundtrip buffer 16 (by omega) hbytes
  · exact encode_read_roundtrip buffer 24 (by omega) hbytes
  · exact encode_read_roundtrip buffer 32 (by omega) hbytes
  · exact encode_read_roundtrip buffer 40 (by omega) hbytes

/-- C8 witness: the round-trip on the concrete buffer of bytes 0..47. -/
theorem parsePacket_timestamp_roundtrip_witness :
    ∃ p, parsePacket (List.range 48) = .ok p ∧
      encodeUInt32BE p.timestamps.reference.raw.seconds ++
          encodeUInt32BE p.timestamps.reference.raw.fraction =
        ((List.range 48).drop 16).take 8 ∧
      encodeUInt32BE p.timestamps.originate.raw.seconds ++
          encodeUInt32BE p.timestamps.originate.raw.fraction =
        ((List.range 48).drop 24).take 8 ∧
      encodeUInt32BE p.timestamps.receive.raw.seconds ++
          encodeUInt32BE p.timestamps.receive.raw.fraction =
        ((List.range 48).drop 32).take 8 ∧
      encodeUInt32BE p.timestamps.transmit.raw.seconds ++
          encodeUInt32BE p.timestamps.transmit.raw.fraction =
        ((List.range 48).drop 40).take 8 :=
  parsePacket_timestamp_roundtrip (List.range 48) (by decide) (by decide)

theorem readUInt32BE_congr {b1 b2 : List Nat} (k : Nat)
    (h : ∀ j, j < 4 → b1.getD (k + j) 0 = b2.getD (k + j) 0) :
    readUInt32BE b1 k = readUInt32BE b2 k := by
  unfold readUInt32BE
  rw [show b1.getD k 0 = b2.getD k 0 by simpa using h 0 (by omega),
    h 1 (by omega), h 2 (by omega), h 3 (by omega)]

theorem parseNTPTimestamp_congr {b1 b2 : List Nat} (k : Nat)
    (h : ∀ j, j < 8 → b1.getD (k + j) 0 = b2.getD (k + j) 0) :
    parseNTPTimestamp b1 k = parseNTPTimestamp b2 k := by
  unfold parseNTPTimestamp
  rw [readUInt32BE_congr k (fun j hj => h j (by omega)),
    readUInt32BE_congr (k + 4)
      (fun j hj => by simpa [Nat.add_assoc] using h (4 + j) (by omega))]

/-- C10: `parsePacket` is a pure function of the first 48 bytes of its
input: any two buffers of length at least 48 agreeing on bytes 0–47 parse
to structurally equal packets, so trailing bytes are ignored. -/
theorem parsePacket_first48 (b1 b2 : List Nat)
    (h1 : 48 ≤ b1.length) (h2 : 48 ≤ b2.length)
    (h : b1.take 48 = b2.take 48) :
    parsePacket b1 = parsePacket b2 := by
  have hgetD : ∀ i, i < 48 → b1.getD i 0 = b2.getD i 0 := by
    intro i hi
    have e := congrArg (fun l => l.getD i 0) h
    simpa [List.getD_eq_getElem?_getD, List.getElem?_take_of_lt hi] using e
  unfold parsePacket
  rw [if_neg (by omega), if_neg (by omega)]
  rw [hgetD 0 (by omega), hgetD 1 (by omega), hgetD 2 (by omega),
    hgetD 3 (by omega),
    readUInt32BE_congr 4 (fun j hj => hgetD (4 + j) (by omega)),
    readUInt32BE_congr 8 (fun j hj => hgetD (8 + j) (by omega)),
    readUInt32BE_congr 12 (fun j hj => hgetD (12 + j) (by omega)),
    parseNTPTimestamp_congr 16 (fun j hj => hgetD (16 + j) (by omega)),
    parseNTPTimestamp_congr 24 (fun j hj => hgetD (24 + j) (by omega)),
    parseNTPTimestamp_congr 32 (fun j hj => hgetD (32 + j) (by omega)),
    parseNTPTimestamp_congr 40 (fun j hj => hgetD (40 + j) (by omega))]

/-- C10 witness: a 49-byte buffer parses identically to its 48-byte
truncation extended by a different trailing byte. -/
theorem parsePacket_first48_witness :
    parsePacket (List.range 49) = parsePacket (List.range 48 ++ [255]) :=
  parsePacket_first48 (List.range 49) (List.range 48 ++ [255])
    (by decide) (by decide) (by decide)

theorem queryServer_usedServer {env : String → Except String Transport}
    {s : String} {r : NTPQueryResult} (h : queryServer env s = .ok r) :
    r.usedServer = s := by
  unfold queryServer at h
  split at h
  · exact Except.noConfusion h
  · split at h
    · exact Except.noConfusion h
    · cases h
      rfl

theorem queryGo_spec (env : String → Except String Transport) :
    ∀ (servers : List String) (le : Option String),
      (∀ r, queryGo env servers le = .ok r →
        ∃ pre post, servers = pre ++ r.usedServer :: post ∧
          (∀ s ∈ pre, ∃ e, queryServer env s = .error e) ∧
          queryServer env r.usedServer = .ok r) ∧
      (∀ le2, queryGo env servers le = .error le2 →
        (∀ s ∈ servers, ∃ e, queryServer env s = .error e) ∧
        (servers = [] → le2 = le) ∧
        (∀ hne : servers ≠ [], ∃ e,
          queryServer env (servers.getLast hne) = .error e ∧ le2 = some e)) := by
  intro servers
  induction servers with
  | nil =>
    intro le
    constructor
    · intro r hr
      exact absurd hr (by simp [queryGo])
    · intro le2 hle2
      simp only [queryGo, Except.error.injEq] at hle2
      exact ⟨by simp, fun _ => hle2.symm, fun hne => absurd rfl hne⟩
  | cons s rest ih =>
    intro le
    constructor
    · intro r hr
      rw [queryGo] at hr
      cases hs : queryServer env s with
      | ok r0 =>
        rw [hs] at hr
        cases hr
        refine ⟨[], rest, ?_, by simp, ?_⟩
        · rw [queryServer_usedServer hs]
          rfl
        · rw [queryServer_usedServer hs]
          exact hs
      | error e =>
        rw [hs] at hr
        obtain ⟨pre, post, hsplit, hprefail, hok⟩ := (ih (some e)).1 r hr
        exact ⟨s :: pre, post, by rw [hsplit]; rfl,
          by
            intro x hx
            rcases List.mem_cons.mp hx with hx | hx
            · exact ⟨e, hx ▸ hs⟩
            · exact hprefail x hx,
          hok⟩
    · intro le2 hle2
      rw [queryGo] at hle2
      cases hs : queryServer env s with
      | ok r0 =>
        rw [hs] at hle2
        exact absurd hle2 (by simp)
      | error e =>
        rw [hs] at hle2
        obtain ⟨hallfail, hnil, hlast⟩ := (ih (some e)).2 le2 hle2
        refine ⟨?_, by simp, ?_⟩
        · intro x hx
          rcases List.mem_cons.mp hx with hx | hx
          · exact ⟨e, hx ▸ hs⟩
          · exact hallfail x hx
        · intro hne
          rcases List.eq_nil_or_concat rest with hrest | ⟨l2, b, hrest⟩
          · subst hrest
            exact ⟨e, by simpa using hs, hnil rfl⟩
          · have hrestne : rest ≠ [] := by simp [hrest]
            obtain ⟨e2, he2, hle⟩ := hlast hrestne
            refine ⟨e2, ?_, hle⟩
            rwa [List.getLast_cons hrestne]

/-- C3: `query` attempts hosts strictly in order — the primary host first,
then each fallback in list order — stopping at the first success, whose
result's `usedServer` is the answering host (a member of the configured
list, everything before it having failed); if every host fails, `query`
fails with the `AllServersUnreachable` error carrying the full attempted
host list and the last underlying error (the one from the last host). -/
theorem query_fallback_order (env : String → Except String Transport)
    (host : String) (fallbackServers : List String) :
    (∀ r, query env host fallbackServers = .ok r →
      r.usedServer ∈ host :: fallbackServers ∧
      ∃ pre post, host :: fallbackServers = pre ++ r.usedServer :: post ∧
        (∀ s ∈ pre, ∃ e, queryServer env s = .error e) ∧
        queryServer env r.usedServer = .ok r) ∧
    (∀ err, query env host fallbackServers = .error err →
      (∀ s ∈ host :: fallbackServers, ∃ e, queryServer env s = .error e) ∧
      err.attempted = host :: fallbackServers ∧
      ∃ e, queryServer env
          ((host :: fallbackServers).getLast (by simp)) = .error e ∧
        err.lastError = some e) := by
  constructor
  · intro r hr
    simp only [query] at hr
    cases hq : queryGo env (host :: fallbackServers) none with
    | error le => rw [hq] at hr; exact absurd hr (by simp)
    | ok r0 =>
      rw [hq] at hr
      cases hr
      obtain ⟨pre, post, hsplit, hprefail, hok⟩ :=
        (queryGo_spec env (host :: fallbackServers) none).1 r hq
      exact ⟨by rw [hsplit]; simp, pre, post, hsplit, hprefail, hok⟩
  · intro err herr
    simp only [query] at herr
    cases hq : queryGo env (host :: fallbackServers) none with
    | ok r0 => rw [hq] at herr; exact absurd herr (by simp)
    | error le =>
      rw [hq] at herr
      cases herr
      obtain ⟨hallfail, _, hlast⟩ :=
        (queryGo_spec env (host :: fallbackServers) none).2 le hq
      obtain ⟨e, he, hle⟩ := hlast (by simp)
      exact ⟨hallfail, rfl, e, he, hle⟩

/-- An environment in which every host is unreachable. -/
def envDown : String → Except String Transport :=
  fun _ => .error "getaddrinfo ENOTFOUND"

/-- C3 witness: with both configured hosts down, `query` reports every host
failed, lists both attempted hosts, and carries the last error. -/
theorem query_fallback_order_witness :
    (∀ s ∈ ("time.hixbe.com" :: ["pool.ntp.org"] : List String),
      ∃ e, queryServer envDown s = .error e) ∧
    (AllServersUnreachable.mk ["time.hixbe.com", "pool.ntp.org"]
        (some "getaddrinfo ENOTFOUND")).attempted =
      "time.hixbe.com" :: ["pool.ntp.org"] ∧
    ∃ e, queryServer envDown
        (("time.hixbe.com" :: ["pool.ntp.org"]).getLast (by simp)) = .error e ∧
      (AllServersUnreachable.mk ["time.hixbe.com", "pool.ntp.org"]
        (some "getaddrinfo ENOTFOUND")).lastError = some e :=
  (query_fallback_order envDown "time.hixbe.com" ["pool.ntp.org"]).2
    ⟨["time.hixbe.com", "pool.ntp.org"], some "getaddrinfo ENOTFOUND"⟩ rfl
